import Mathlib

/-!
Verification of the room registry and message fan-out engine of the
chat relay server (`server.js`).

The WebSocket message handler is embedded shallowly:

* `rooms` and `roomOwners` are the two process-wide maps, modelled as
  association lists mutated only through `lookupKey` / `setKey` / `delKey`
  (JavaScript object read / property write / `delete`).
* A JavaScript value that may be `undefined` is an `Option`:
  an absent field of the parsed inbound JSON is `none`, and
  `roomOwners[r] === userId` becomes `Option` equality (so
  `undefined === undefined` is `none = none`, which holds).
* A Connection Handle is a `ConnId` (`Nat`); `readyState === OPEN`
  is membership in `openConns`, and `close()` removes the handle from it.
* Each `forEach` broadcast loop becomes a recursion producing the list of
  `(recipient, message)` deliveries in visit order.  The destroy loop calls
  `close()` between sends, so it threads the set of open handles through the
  loop — a handle occurring twice in a member list is only served once there.
* The `try`/`catch` around the handler is an `Except`: the two places the
  handler can throw (`JSON.parse` of a malformed frame, `.forEach` of an
  `undefined` room entry) occur before any send or map mutation of their
  branch, so the caught-error result is the unchanged state with no sends.
-/

namespace ChatServer

abbrev ConnId := Nat
abbrev RoomId := String
abbrev UserId := String

/-- Read a key of a JavaScript object: `none` plays `undefined`. -/
def lookupKey {α β : Type} [DecidableEq α] : List (α × β) → α → Option β
  | [], _ => none
  | (k, v) :: rest, key => if key = k then some v else lookupKey rest key

/-- Write a key of a JavaScript object: replace in place, or append a new key. -/
def setKey {α β : Type} [DecidableEq α] : List (α × β) → α → β → List (α × β)
  | [], key, v => [(key, v)]
  | (k, w) :: rest, key, v =>
      if key = k then (k, v) :: rest else (k, w) :: setKey rest key v

/-- Remove a key of a JavaScript object: `delete obj[key]`. -/
def delKey {α β : Type} [DecidableEq α] : List (α × β) → α → List (α × β)
  | [], _ => []
  | (k, w) :: rest, key =>
      if key = k then delKey rest key else (k, w) :: delKey rest key

/-- The fields destructured from a parsed inbound frame; a field the JSON
does not carry is `none` (JavaScript `undefined`). -/
structure InMsg where
  action : Option String
  userId : Option String
  room : Option String
  text : Option String
  type : Option String
  url : Option String
  filename : Option String
  deriving DecidableEq, Repr

/-- The outbound messages the server constructs (`JSON.stringify` shapes),
plus `raw` for the byte-for-byte relay of an inbound "message" frame. -/
inductive OutMsg where
  | roomCreated (room : String)
  | system (room : Option String) (text : String)
  | raw (bytes : String)
  | deleteFile (room : Option String) (userId : Option String)
      (url : Option String) (filename : Option String)
  | clearChat (room : Option String) (userId : Option String) (text : String)
  | roomDestroyed (room : Option String) (text : String)
  deriving DecidableEq, Repr

/-- The two process-wide maps plus which Connection Handles are open.
`roomOwners` stores an `Option UserId` because `roomOwners[room] = userId`
can store `undefined` when the creating frame carried no `userId`. -/
structure ServerState where
  rooms : List (RoomId × List ConnId)
  roomOwners : List (RoomId × Option UserId)
  openConns : List ConnId
  deriving DecidableEq, Repr

/-- Whether `client.readyState === WebSocket.OPEN`. -/
def isOpen (s : ServerState) (c : ConnId) : Bool :=
  s.openConns.contains c

/-- The value of the expression `roomOwners[r]`: `undefined` both when the
key is absent and when the stored value is `undefined`. -/
def readOwner (s : ServerState) (r : RoomId) : Option UserId :=
  (lookupKey s.roomOwners r).join

/-- Per-connection mutable context: `currentRoom` / `currentUser`,
both initially `null`. -/
structure Session where
  currentRoom : Option String
  currentUser : Option String
  deriving DecidableEq, Repr

/-- JavaScript truthiness of a string-or-undefined value:
`undefined`, `null` and `""` are falsy. -/
def truthy : Option String → Bool
  | none => false
  | some s => s != ""

/-- String interpolation of a possibly-`undefined` value
(template literals render `undefined` as the text `undefined`). -/
def jsStr : Option String → String
  | none => "undefined"
  | some s => s

/-- Indexing an object with a possibly-`undefined` value coerces it to a
string key. -/
def jsKey : Option String → String
  | none => "undefined"
  | some s => s

/-- The two ways the message handler can throw inside its `try` block. -/
inductive JsError where
  | parseError
  | typeError
  deriving DecidableEq, Repr

/-- The result of one run of the message handler: the updated maps and open
set, the updated session variables, and the deliveries in emission order. -/
structure HandlerOut where
  state : ServerState
  sess : Session
  sends : List (ConnId × OutMsg)
  deriving DecidableEq, Repr

/-- One `forEach` broadcast loop guarded by
`client.readyState === WebSocket.OPEN`: deliveries in visit order. -/
def broadcastFold (s : ServerState) (m : OutMsg) : List ConnId → List (ConnId × OutMsg)
  | [] => []
  | c :: rest =>
      if isOpen s c then (c, m) :: broadcastFold s m rest
      else broadcastFold s m rest

/-- The join-notice loop, guarded by `client !== ws &&
client.readyState === WebSocket.OPEN`. -/
def broadcastExcept (s : ServerState) (self : ConnId) (m : OutMsg) :
    List ConnId → List (ConnId × OutMsg)
  | [] => []
  | c :: rest =>
      if c != self && isOpen s c then (c, m) :: broadcastExcept s self m rest
      else broadcastExcept s self m rest

/-- The destroy loop: `if OPEN { send(destroyMsg); close(); }`.  Because
`close()` runs inside the loop, later iterations observe the updated
`readyState`, so the set of open handles is threaded through.  Returns the
deliveries in visit order and the remaining open handles. -/
def destroyFold (m : OutMsg) : List ConnId → List ConnId →
    List (ConnId × OutMsg) × List ConnId
  | [], opens => ([], opens)
  | c :: rest, opens =>
      if opens.contains c then
        let res := destroyFold m rest (opens.filter (fun x => x != c))
        ((c, m) :: res.1, res.2)
      else destroyFold m rest opens

/-- The body of the `try` block of `ws.on("message")`, after a successful
`JSON.parse`: the if-else chain on `action`.  `roomCode` is the string the
create branch draws from `Math.random()` (an oracle input to the handler);
`raw` is `rawMsg.toString()`. -/
def handleParsed (ws : ConnId) (roomCode : String) (s : ServerState)
    (sess : Session) (raw : String) (msg : InMsg) : Except JsError HandlerOut :=
  if msg.action = some "create" then
    let rooms1 := setKey s.rooms roomCode [ws]
    let owners1 := setKey s.roomOwners roomCode msg.userId
    .ok { state := { s with rooms := rooms1, roomOwners := owners1 },
          sess := { currentRoom := some roomCode, currentUser := msg.userId },
          sends := [(ws, OutMsg.roomCreated roomCode)] }
  else if msg.action = some "join" then
    let key := jsKey msg.room
    let members0 := (lookupKey s.rooms key).getD []
    let members1 := members0 ++ [ws]
    let joinText := jsStr msg.userId ++ " has joined the chat"
    .ok { state := { s with rooms := setKey s.rooms key members1 },
          sess := { currentRoom := msg.room, currentUser := msg.userId },
          sends := broadcastExcept s ws (OutMsg.system msg.room joinText) members1 }
  else if msg.action = some "message" ∧ truthy sess.currentRoom = true then
    match lookupKey s.rooms (jsKey sess.currentRoom) with
    | none => .error .typeError
    | some members =>
        .ok { state := s, sess := sess,
              sends := broadcastFold s (OutMsg.raw raw) members }
  else if msg.action = some "deleteFile" ∧ truthy sess.currentRoom = true then
    match lookupKey s.rooms (jsKey sess.currentRoom) with
    | none => .error .typeError
    | some members =>
        .ok { state := s, sess := sess,
              sends := broadcastFold s
                (OutMsg.deleteFile sess.currentRoom msg.userId msg.url msg.filename)
                members }
  else if msg.action = some "clearChat" ∧ truthy sess.currentRoom = true then
    match lookupKey s.rooms (jsKey sess.currentRoom) with
    | none => .error .typeError
    | some members =>
        let clearText := "Chat cleared by " ++ jsStr msg.userId ++
          " using shortcut (" ++ jsStr msg.text ++ ")"
        .ok { state := s, sess := sess,
              sends := broadcastFold s
                (OutMsg.clearChat sess.currentRoom msg.userId clearText) members }
  else if msg.action = some "destroyRoom" ∧ truthy sess.currentRoom = true then
    if readOwner s (jsKey sess.currentRoom) = msg.userId then
      match lookupKey s.rooms (jsKey sess.currentRoom) with
      | none => .error .typeError
      | some members =>
          let destroyText := "Room " ++ jsStr sess.currentRoom ++
            " has been destroyed by " ++ jsStr msg.userId
          let res := destroyFold
            (OutMsg.roomDestroyed sess.currentRoom destroyText)
            members s.openConns
          .ok { state := { rooms := delKey s.rooms (jsKey sess.currentRoom),
                           roomOwners := delKey s.roomOwners (jsKey sess.currentRoom),
                           openConns := res.2 },
                sess := sess, sends := res.1 }
    else
      .ok { state := s, sess := sess, sends := [] }
  else
    .ok { state := s, sess := sess, sends := [] }

/-- The whole `ws.on("message")` callback: the `catch` logs and discards.
Both throw sites precede every send and map mutation of their branch, so a
caught error leaves state, session and deliveries untouched.  `parsed` is
`none` when `JSON.parse(rawMsg.toString())` throws. -/
def onMessage (ws : ConnId) (roomCode : String) (s : ServerState)
    (sess : Session) (raw : String) (parsed : Option InMsg) : HandlerOut :=
  match parsed with
  | none => { state := s, sess := sess, sends := [] }
  | some msg =>
      match handleParsed ws roomCode s sess raw msg with
      | .ok out => out
      | .error _ => { state := s, sess := sess, sends := [] }

/-- The `ws.on("close")` callback.  By the time it runs the socket is no
longer open, so `ws` is first dropped from the open set; then
`if (currentRoom && rooms[currentRoom])` guards removal and the departure
notice (sent only when `currentUser` is truthy). -/
def onClose (ws : ConnId) (s : ServerState) (sess : Session) :
    ServerState × List (ConnId × OutMsg) :=
  let s0 : ServerState := { s with openConns := s.openConns.filter (fun c => c != ws) }
  if truthy sess.currentRoom then
    match lookupKey s0.rooms (jsKey sess.currentRoom) with
    | none => (s0, [])
    | some members =>
        let remaining := members.filter (fun c => c != ws)
        let s1 : ServerState := { s0 with rooms := setKey s0.rooms (jsKey sess.currentRoom) remaining }
        if truthy sess.currentUser then
          let leftText := jsStr sess.currentUser ++ " has left the chat"
          (s1, broadcastFold s1 (OutMsg.system sess.currentRoom leftText) remaining)
        else
          (s1, [])
  else (s0, [])

/-- The room-code generator
`Math.floor(10000 + Math.random() * 90000)`, with the `Math.random()` draw
(a value of `[0,1)`) as a rational oracle. -/
def genRoomCode (q : ℚ) : ℤ :=
  Int.floor ((10000 : ℚ) + q * 90000)

/-- Whole-system view used for concrete executions: the server maps, one
session per connection, and the accumulated deliveries. -/
structure World where
  server : ServerState
  sessions : List (ConnId × Session)
  log : List (ConnId × OutMsg)
  deriving DecidableEq, Repr

def World.init : World :=
  { server := { rooms := [], roomOwners := [], openConns := [] },
    sessions := [], log := [] }

def getSession (w : World) (ws : ConnId) : Session :=
  (lookupKey w.sessions ws).getD { currentRoom := none, currentUser := none }

/-- Externally visible events: a connection opening, an inbound frame
(with the create branch's random draw as oracle), a connection closing. -/
inductive Ev where
  | connect (ws : ConnId)
  | frame (ws : ConnId) (roomCode : String) (raw : String) (parsed : Option InMsg)
  | closeEv (ws : ConnId)
  deriving DecidableEq, Repr

def World.step (w : World) : Ev → World
  | .connect ws =>
      { w with server := { w.server with openConns := w.server.openConns ++ [ws] },
               sessions := setKey w.sessions ws { currentRoom := none, currentUser := none } }
  | .frame ws roomCode raw parsed =>
      let out := onMessage ws roomCode w.server (getSession w ws) raw parsed
      { server := out.state, sessions := setKey w.sessions ws out.sess,
        log := w.log ++ out.sends }
  | .closeEv ws =>
      let res := onClose ws w.server (getSession w ws)
      { server := res.1, sessions := w.sessions, log := w.log ++ res.2 }

def runEvents (evs : List Ev) : World :=
  evs.foldl World.step World.init

/-- Frame shorthand: a join frame for room `r` by user `u`. -/
def joinMsg (r u : String) : InMsg :=
  { action := some "join", userId := some u, room := some r,
    text := none, type := none, url := none, filename := none }

/-- Frame shorthand: a create frame by user `u`. -/
def createMsg (u : String) : InMsg :=
  { action := some "create", userId := some u, room := none,
    text := none, type := none, url := none, filename := none }

/-- Frame shorthand: a plain text message frame. -/
def textMsg (u t : String) : InMsg :=
  { action := some "message", userId := some u, room := none,
    text := some t, type := none, url := none, filename := none }

/-- Frame shorthand: a destroy frame whose `userId` field may be absent. -/
def destroyMsg (u : Option String) : InMsg :=
  { action := some "destroyRoom", userId := u, room := none,
    text := none, type := none, url := none, filename := none }

/-- Frame shorthand: a deleteFile frame. -/
def fileDelMsg (u fileUrl fn : String) : InMsg :=
  { action := some "deleteFile", userId := some u, room := none,
    text := none, type := none, url := some fileUrl, filename := some fn }

/-- Frame shorthand: a clearChat frame (its `text` carries the shortcut). -/
def clearChatMsg (u t : String) : InMsg :=
  { action := some "clearChat", userId := some u, room := none,
    text := some t, type := none, url := none, filename := none }

/-- Applying a sequence of join frames for room `r` to a server state
(each joiner's session plays no role in the join branch). -/
def applyJoins (r : String) : ServerState → List (ConnId × String) → ServerState
  | s, [] => s
  | s, (ws, u) :: rest =>
      applyJoins r
        (onMessage ws "" s { currentRoom := none, currentUser := none } ""
          (some (joinMsg r u))).state rest

/-- Concrete scenario: room "54321" owned by "alice", members 1 and 2, but
only handle 1 still open (handle 2 closed concurrently). -/
def stHalfOpen : ServerState :=
  { rooms := [("54321", [1, 2])], roomOwners := [("54321", some "alice")], openConns := [1] }

/-- Concrete scenario: room "54321" owned by "alice", members 1 and 2 open. -/
def stBothOpen : ServerState :=
  { rooms := [("54321", [1, 2])], roomOwners := [("54321", some "alice")], openConns := [1, 2] }

/-- Concrete scenario: session of connection 1 bound to "54321" as "alice". -/
def aliceSess : Session :=
  { currentRoom := some "54321", currentUser := some "alice" }

/-- Concrete scenario: a three-member fully open room "12345". -/
def stTrio : ServerState :=
  { rooms := [("12345", [1, 2, 3])], roomOwners := [("12345", some "a")], openConns := [1, 2, 3] }

/-- Concrete scenario: room "12345" with sole member 2, while handles 1 and 2
are both open (handle 1 not yet a member). -/
def stDuo : ServerState :=
  { rooms := [("12345", [2])], roomOwners := [], openConns := [1, 2] }

/-- Concrete run: connection 1 creates room "12345" and then also joins it,
ending up twice in the member list. -/
def dupRun : World :=
  runEvents [Ev.connect 1,
    Ev.frame 1 "12345" "" (some (createMsg "alice")),
    Ev.frame 1 "" "" (some (joinMsg "12345" "alice"))]

/-- Concrete run: connection 1 joins the nonexistent room "77777", lazily
creating it with no owner record. -/
def orphanRun : World :=
  runEvents [Ev.connect 1, Ev.frame 1 "" "" (some (joinMsg "77777" "bob"))]

/-- Concrete run: a single create by "alice" drawing code "12345". -/
def firstCreateRun : World :=
  runEvents [Ev.connect 1, Ev.frame 1 "12345" "" (some (createMsg "alice"))]

/-- Concrete run: two creates draw the same code "12345" (collision). -/
def collideRun : World :=
  runEvents [Ev.connect 1,
    Ev.frame 1 "12345" "" (some (createMsg "alice")),
    Ev.connect 2,
    Ev.frame 2 "12345" "" (some (createMsg "bob"))]

/-- Concrete run: "alice" creates "12345", "bob" joins twice (so handle 2 is
listed twice), then connection 1 disconnects. -/
def dupLeaveRun : World :=
  runEvents [Ev.connect 1,
    Ev.frame 1 "12345" "" (some (createMsg "alice")),
    Ev.connect 2,
    Ev.frame 2 "" "" (some (joinMsg "12345" "bob")),
    Ev.frame 2 "" "" (some (joinMsg "12345" "bob")),
    Ev.closeEv 1]

/-! ### Broadcast loop characterizations -/

/-- A `forEach` broadcast delivers the message to exactly the open members,
in visit order. -/
theorem broadcastFold_eq_filter_map (s : ServerState) (m : OutMsg) (l : List ConnId) :
    broadcastFold s m l = (l.filter (fun c => isOpen s c)).map (fun c => (c, m)) := by
  induction l with
  | nil => rfl
  | cons c rest ih =>
      by_cases h : isOpen s c = true
      · simp [broadcastFold, h, List.filter_cons, ih]
      · simp [broadcastFold, h, List.filter_cons, ih]

/-- The join-notice loop delivers to exactly the open members other than the
joiner, in visit order. -/
theorem broadcastExcept_eq_filter_map (s : ServerState) (self : ConnId) (m : OutMsg)
    (l : List ConnId) :
    broadcastExcept s self m l =
      (l.filter (fun c => c != self && isOpen s c)).map (fun c => (c, m)) := by
  induction l with
  | nil => rfl
  | cons c rest ih =>
      by_cases h : (c != self && isOpen s c) = true
      · simp [broadcastExcept, h, List.filter_cons, ih]
      · simp [broadcastExcept, h, List.filter_cons, ih]

/-- On a duplicate-free member list, the destroy loop delivers to exactly those
members open when the loop starts, in visit order, and afterwards exactly the
open handles that are not members remain open. -/
theorem destroyFold_eq_of_nodup (m : OutMsg) (l : List ConnId) (opens : List ConnId)
    (hnd : l.Nodup) :
    destroyFold m l opens =
      ((l.filter (fun c => opens.contains c)).map (fun c => (c, m)),
        opens.filter (fun x => !(l.contains x))) := by
  induction l generalizing opens with
  | nil => simp [destroyFold]
  | cons c rest ih =>
      have hc : c ∉ rest := (List.nodup_cons.mp hnd).1
      have hrest : rest.Nodup := (List.nodup_cons.mp hnd).2
      by_cases h : opens.contains c = true
      · have hfilter : rest.filter (fun x => (opens.filter (fun y => y != c)).contains x)
            = rest.filter (fun x => opens.contains x) := by
          apply List.filter_congr
          intro x hx
          have hxc : x ≠ c := fun hxy => hc (hxy ▸ hx)
          simp [decide_eq_decide, List.mem_filter, hxc]
        have hopens : (opens.filter (fun y => y != c)).filter
              (fun x => !(rest.contains x))
            = opens.filter (fun x => !((c :: rest).contains x)) := by
          rw [List.filter_filter]
          apply List.filter_congr
          intro x hx
          by_cases hxc : x = c
          · subst hxc
            have : x ∈ opens := hx
            simp [List.contains_cons]
          · simp [List.contains_cons, hxc, Bool.and_comm]
        rw [destroyFold, if_pos h, ih _ hrest, hfilter, hopens,
          List.filter_cons_of_pos h, List.map_cons]
      · have hcmem : c ∉ opens := by
          intro hmem
          exact h (List.elem_eq_true_of_mem hmem)
        have hopens : opens.filter (fun x => !(rest.contains x))
            = opens.filter (fun x => !((c :: rest).contains x)) := by
          apply List.filter_congr
          intro x hx
          have hxc : x ≠ c := fun hxy => hcmem (hxy ▸ hx)
          simp [List.contains_cons, hxc]
        rw [destroyFold, if_neg h, ih _ hrest, hopens,
          List.filter_cons_of_neg h]

/-- On any member list (duplicates included), after the destroy loop exactly
the open handles that are not listed remain open: each listed open handle is
closed at its first visit, and later duplicate visits find it already
closed. -/
theorem destroyFold_final_opens (m : OutMsg) (l : List ConnId) :
    ∀ opens : List ConnId,
      (destroyFold m l opens).2 = opens.filter (fun x => !(l.contains x)) := by
  induction l with
  | nil => intro opens; simp [destroyFold]
  | cons c rest ih =>
      intro opens
      by_cases h : opens.contains c = true
      · have hopens : (opens.filter (fun y => y != c)).filter
              (fun x => !(rest.contains x))
            = opens.filter (fun x => !((c :: rest).contains x)) := by
          rw [List.filter_filter]
          apply List.filter_congr
          intro x hx
          by_cases hxc : x = c
          · subst hxc
            simp [List.contains_cons]
          · simp [List.contains_cons, hxc, Bool.and_comm]
        rw [destroyFold, if_pos h]
        show (destroyFold m rest (opens.filter (fun x => x != c))).2 = _
        rw [ih (opens.filter (fun x => x != c)), hopens]
      · have hcmem : c ∉ opens := fun hmem => h (List.elem_eq_true_of_mem hmem)
        have hopens : opens.filter (fun x => !(rest.contains x))
            = opens.filter (fun x => !((c :: rest).contains x)) := by
          apply List.filter_congr
          intro x hx
          have hxc : x ≠ c := fun hxy => hcmem (hxy ▸ hx)
          simp [List.contains_cons, hxc]
        rw [destroyFold, if_neg h, ih opens, hopens]

/-- Every delivery of the destroy loop goes to a listed handle that was still
open when the loop reached it (hence open at loop start), and carries the
destroy notice. -/
theorem destroyFold_sends_mem (m : OutMsg) (l : List ConnId) :
    ∀ opens : List ConnId, ∀ p ∈ (destroyFold m l opens).1,
      p.1 ∈ opens ∧ p.1 ∈ l ∧ p.2 = m := by
  induction l with
  | nil =>
      intro opens p hp
      simp [destroyFold] at hp
  | cons c rest ih =>
      intro opens p hp
      by_cases h : opens.contains c = true
      · rw [destroyFold, if_pos h] at hp
        rcases List.mem_cons.mp hp with hpeq | hptail
        · subst hpeq
          exact ⟨List.mem_of_elem_eq_true h, List.mem_cons_self c rest, rfl⟩
        · obtain ⟨h1, h2, h3⟩ := ih (opens.filter (fun x => x != c)) p hptail
          exact ⟨(List.mem_filter.mp h1).1, List.mem_cons_of_mem c h2, h3⟩
      · rw [destroyFold, if_neg h] at hp
        obtain ⟨h1, h2, h3⟩ := ih opens p hp
        exact ⟨h1, List.mem_cons_of_mem c h2, h3⟩

/-- On any member list (duplicates included), the destroy loop delivers the
notice exactly once to each listed handle that is open at loop start: the
first visit sends and closes it, so later duplicate visits skip it. -/
theorem destroyFold_count_one (m : OutMsg) (l : List ConnId) :
    ∀ (opens : List ConnId) (c : ConnId), c ∈ opens → c ∈ l →
      ((destroyFold m l opens).1).count (c, m) = 1 := by
  induction l with
  | nil =>
      intro opens c hco hcl
      cases hcl
  | cons c0 rest ih =>
      intro opens c hco hcl
      by_cases h : opens.contains c0 = true
      · by_cases heq : c = c0
        · subst heq
          have hzero : ((destroyFold m rest
                (opens.filter (fun x => x != c))).1).count (c, m) = 0 := by
            apply List.count_eq_zero.mpr
            intro hmem
            have h1 := (destroyFold_sends_mem m rest _ _ hmem).1
            simp [List.mem_filter] at h1
          rw [destroyFold, if_pos h]
          show List.count (c, m) ((c, m) :: (destroyFold m rest
            (opens.filter (fun x => x != c))).1) = 1
          simp [List.count_cons, hzero]
        · have hcrest : c ∈ rest := by
            rcases List.mem_cons.mp hcl with h1 | h1
            · exact absurd h1 heq
            · exact h1
          have hcopens : c ∈ opens.filter (fun x => x != c0) := by
            simp [List.mem_filter, hco, heq]
          have hrec := ih (opens.filter (fun x => x != c0)) c hcopens hcrest
          rw [destroyFold, if_pos h]
          show List.count (c, m) ((c0, m) :: (destroyFold m rest
            (opens.filter (fun x => x != c0))).1) = 1
          have hne : ((c, m) : ConnId × OutMsg) ≠ (c0, m) := by
            intro hpair
            exact heq (congrArg Prod.fst hpair)
          simp [List.count_cons, hrec, hne]
      · have hc0 : c ≠ c0 := by
          intro heq
          subst heq
          exact h (List.elem_eq_true_of_mem hco)
        have hcrest : c ∈ rest := by
          rcases List.mem_cons.mp hcl with h1 | h1
          · exact absurd h1 hc0
          · exact h1
        rw [destroyFold, if_neg h]
        exact ih opens c hco hcrest

/-! ### Map operation lemmas -/

theorem lookupKey_setKey_self {α β : Type} [DecidableEq α] (m : List (α × β)) (k : α) (v : β) :
    lookupKey (setKey m k v) k = some v := by
  induction m with
  | nil => simp [setKey, lookupKey]
  | cons p rest ih =>
      by_cases h : k = p.1
      · simp [setKey, h, lookupKey]
      · simp [setKey, h, lookupKey, ih]

theorem lookupKey_setKey_ne {α β : Type} [DecidableEq α] (m : List (α × β)) (k k' : α) (v : β)
    (h : k' ≠ k) :
    lookupKey (setKey m k v) k' = lookupKey m k' := by
  induction m with
  | nil => simp [setKey, lookupKey, h]
  | cons p rest ih =>
      by_cases hk : k = p.1
      · subst hk
        simp [setKey, lookupKey, h]
      · by_cases hk' : k' = p.1
        · simp [setKey, hk, lookupKey, hk']
        · simp [setKey, hk, lookupKey, hk', ih]

theorem lookupKey_delKey_self {α β : Type} [DecidableEq α] (m : List (α × β)) (k : α) :
    lookupKey (delKey m k) k = none := by
  induction m with
  | nil => simp [delKey, lookupKey]
  | cons p rest ih =>
      obtain ⟨a, b⟩ := p
      by_cases h : k = a
      · subst h
        simp [delKey, ih]
      · simp [delKey, h, lookupKey, ih]

theorem lookupKey_delKey_ne {α β : Type} [DecidableEq α] (m : List (α × β)) (k k' : α)
    (h : k' ≠ k) :
    lookupKey (delKey m k) k' = lookupKey m k' := by
  induction m with
  | nil => simp [delKey, lookupKey]
  | cons p rest ih =>
      by_cases hk : k = p.1
      · subst hk
        simp [delKey, lookupKey, h, ih]
      · by_cases hk' : k' = p.1
        · simp [delKey, hk, lookupKey, hk']
        · simp [delKey, hk, lookupKey, hk', ih]

/-- Counting helper: in a pairing map over a duplicate-free list, each listed
handle is counted exactly once. -/
theorem count_pair_map_eq_one {l : List ConnId} (hnd : l.Nodup) {c : ConnId} (hc : c ∈ l)
    (m : OutMsg) :
    ((l.map (fun x => (x, m))).count (c, m)) = 1 := by
  induction l with
  | nil => cases hc
  | cons a rest ih =>
      have hha : a ∉ rest := (List.nodup_cons.mp hnd).1
      have hhr : rest.Nodup := (List.nodup_cons.mp hnd).2
      rcases List.mem_cons.mp hc with h | h
      · subst h
        have hz : ((rest.map (fun x => (x, m))).count (c, m)) = 0 := by
          apply List.count_eq_zero.mpr
          simp only [List.mem_map, not_exists, not_and]
          intro x hx hxm
          have : x = c := congrArg Prod.fst hxm
          exact hha (this ▸ hx)
        simp [List.count_cons, hz]
      · have hac : a ≠ c := fun heq => hha (heq ▸ h)
        simp [List.count_cons, ih hhr h, hac, Ne.symm hac]

/-! ### Claim theorems -/

/-- C2: a destroyRoom action whose userId differs from the recorded owner of
the bound room is a complete no-op: the maps, open set and session are
unchanged and nothing is sent to anyone (in particular no error notice
reaches the requester). -/
theorem C2_nonowner_destroy_noop (ws : ConnId) (code : String) (s : ServerState)
    (sess : Session) (raw : String) (msg : InMsg) (R : RoomId) (O : UserId)
    (hR : sess.currentRoom = some R) (hRne : R ≠ "")
    (hact : msg.action = some "destroyRoom")
    (hown : readOwner s R = some O)
    (hne : msg.userId ≠ some O) :
    onMessage ws code s sess raw (some msg) = { state := s, sess := sess, sends := [] } := by
  simp [onMessage, handleParsed, hact, hR, hRne, truthy, jsKey, hown, Ne.symm hne]

theorem C2_nonowner_destroy_noop_witness :
    onMessage 1 "" { rooms := [("54321", [1, 2])], roomOwners := [("54321", some "alice")], openConns := [1, 2] }
      { currentRoom := some "54321", currentUser := some "eve" } ""
      (some (destroyMsg (some "eve")))
      = { state := { rooms := [("54321", [1, 2])], roomOwners := [("54321", some "alice")], openConns := [1, 2] },
          sess := { currentRoom := some "54321", currentUser := some "eve" },
          sends := [] } :=
  C2_nonowner_destroy_noop 1 ""
    { rooms := [("54321", [1, 2])], roomOwners := [("54321", some "alice")], openConns := [1, 2] }
    { currentRoom := some "54321", currentUser := some "eve" } ""
    (destroyMsg (some "eve")) "54321" "alice" rfl (by decide) rfl (by decide) (by decide)

/-- C5: a create action draws a value in 10000–99999, installs the issuing
handle as the sole member under the drawn code, records the action's userId
as owner, replies `roomCreated` to the sender, and binds the session — all
regardless of the prior state, so a colliding live code is neither checked
nor retried (the existing entry is simply overwritten). -/
theorem C5_create (ws : ConnId) (s : ServerState) (sess : Session) (raw : String)
    (msg : InMsg) (q : ℚ) (U : UserId)
    (hq0 : 0 ≤ q) (hq1 : q < 1)
    (hact : msg.action = some "create") (huser : msg.userId = some U) :
    let out := onMessage ws (toString (genRoomCode q)) s sess raw (some msg)
    (10000 ≤ genRoomCode q ∧ genRoomCode q ≤ 99999) ∧
    lookupKey out.state.rooms (toString (genRoomCode q)) = some [ws] ∧
    readOwner out.state (toString (genRoomCode q)) = some U ∧
    out.sends = [(ws, OutMsg.roomCreated (toString (genRoomCode q)))] ∧
    out.sess = { currentRoom := some (toString (genRoomCode q)), currentUser := some U } := by
  intro out
  have hlo : (10000 : ℤ) ≤ genRoomCode q := by
    rw [genRoomCode]
    apply Int.le_floor.mpr
    push_cast
    nlinarith
  have hhi : genRoomCode q ≤ 99999 := by
    have hlt : genRoomCode q < 100000 := by
      rw [genRoomCode]
      apply Int.floor_lt.mpr
      push_cast
      nlinarith
    omega
  refine ⟨⟨hlo, hhi⟩, ?_, ?_, ?_, ?_⟩ <;>
    simp [out, onMessage, handleParsed, hact, huser, readOwner,
      lookupKey_setKey_self]

theorem C5_create_witness :
    let out := onMessage 7 (toString (genRoomCode (1/2)))
      { rooms := [], roomOwners := [], openConns := [7] }
      { currentRoom := none, currentUser := none } "" (some (createMsg "alice"))
    (10000 ≤ genRoomCode (1/2) ∧ genRoomCode (1/2) ≤ 99999) ∧
    lookupKey out.state.rooms (toString (genRoomCode (1/2))) = some [7] ∧
    readOwner out.state (toString (genRoomCode (1/2))) = some "alice" ∧
    out.sends = [(7, OutMsg.roomCreated (toString (genRoomCode (1/2))))] ∧
    out.sess = { currentRoom := some (toString (genRoomCode (1/2))), currentUser := some "alice" } :=
  C5_create 7 { rooms := [], roomOwners := [], openConns := [7] }
    { currentRoom := none, currentUser := none } "" (createMsg "alice") (1/2) "alice"
    (by norm_num) (by norm_num) rfl rfl

/-- C10: an inbound message, deleteFile or clearChat frame on a session whose
bound room is absent from the registry throws inside the handler
(`rooms[currentRoom].forEach` of `undefined`); the catch swallows it, so
nothing is sent, the maps and the open set are unchanged and the connection
stays open.  A destroyRoom frame in the same state is likewise silently
ignored (either the owner check fails, or the same caught throw occurs). -/
theorem C10_missing_room_safe (ws : ConnId) (code : String) (s : ServerState)
    (sess : Session) (raw : String) (msg : InMsg) (R : RoomId)
    (hR : sess.currentRoom = some R) (hRne : R ≠ "")
    (hmiss : lookupKey s.rooms R = none) :
    ((msg.action = some "message" ∨ msg.action = some "deleteFile" ∨
        msg.action = some "clearChat") →
      handleParsed ws code s sess raw msg = .error JsError.typeError ∧
      onMessage ws code s sess raw (some msg) = { state := s, sess := sess, sends := [] }) ∧
    (msg.action = some "destroyRoom" →
      onMessage ws code s sess raw (some msg) = { state := s, sess := sess, sends := [] }) := by
  constructor
  · rintro (hact | hact | hact) <;>
      · constructor <;>
          simp [onMessage, handleParsed, hact, hR, hRne, truthy, jsKey, hmiss]
  · intro hact
    by_cases hid : readOwner s R = msg.userId
    · simp [onMessage, handleParsed, hact, hR, hRne, truthy, jsKey, hmiss, hid]
    · simp [onMessage, handleParsed, hact, hR, hRne, truthy, jsKey, hmiss, hid]

theorem C10_missing_room_safe_witness :
    ((some "message" = some "message" ∨ (some "message" : Option String) = some "deleteFile" ∨
        (some "message" : Option String) = some "clearChat") →
      handleParsed 1 "" { rooms := [], roomOwners := [], openConns := [1] }
        { currentRoom := some "99999", currentUser := some "u" } "x" (textMsg "u" "x")
        = .error JsError.typeError ∧
      onMessage 1 "" { rooms := [], roomOwners := [], openConns := [1] }
        { currentRoom := some "99999", currentUser := some "u" } "x" (some (textMsg "u" "x"))
        = { state := { rooms := [], roomOwners := [], openConns := [1] },
            sess := { currentRoom := some "99999", currentUser := some "u" }, sends := [] }) ∧
    ((textMsg "u" "x").action = some "destroyRoom" →
      onMessage 1 "" { rooms := [], roomOwners := [], openConns := [1] }
        { currentRoom := some "99999", currentUser := some "u" } "x" (some (textMsg "u" "x"))
        = { state := { rooms := [], roomOwners := [], openConns := [1] },
            sess := { currentRoom := some "99999", currentUser := some "u" }, sends := [] }) :=
  C10_missing_room_safe 1 "" { rooms := [], roomOwners := [], openConns := [1] }
    { currentRoom := some "99999", currentUser := some "u" } "x" (textMsg "u" "x") "99999"
    rfl (by decide) rfl


/-- C1 as stated is false: in room "54321" with member list [1, 2] but only
handle 1 open (`stHalfOpen`), the owner's destroy sends the `roomDestroyed`
notice to handle 1 only — member 2 receives zero messages, not exactly one. -/
theorem C1_destroy_counterexample :
    readOwner stHalfOpen "54321" = some "alice" ∧
    lookupKey stHalfOpen.rooms "54321" = some [1, 2] ∧
    (onMessage 1 "" stHalfOpen aliceSess "" (some (destroyMsg (some "alice")))).sends
      = [(1, OutMsg.roomDestroyed (some "54321") "Room 54321 has been destroyed by alice")] ∧
    (((onMessage 1 "" stHalfOpen aliceSess ""
        (some (destroyMsg (some "alice")))).sends.map Prod.fst).count 2) = 0 := by
  decide

/-- C1 amended: an owner's destroy sends exactly one `roomDestroyed` notice
to every member whose handle is OPEN at destroy time — even a member listed
twice receives it once, because the loop closes each handle right after
sending to it — while a member not open receives nothing; every delivery is
the destroy notice to a member; afterwards no member's handle reports open,
and both the room entry and the owner record are removed. -/
theorem C1_owner_destroy (ws : ConnId) (code : String) (s : ServerState)
    (sess : Session) (raw : String) (msg : InMsg) (R : RoomId) (O : UserId)
    (members : List ConnId)
    (hR : sess.currentRoom = some R) (hRne : R ≠ "")
    (hact : msg.action = some "destroyRoom") (huser : msg.userId = some O)
    (hown : readOwner s R = some O)
    (hmem : lookupKey s.rooms R = some members) :
    let dmsg := OutMsg.roomDestroyed (some R) ("Room " ++ R ++ " has been destroyed by " ++ O)
    let out := onMessage ws code s sess raw (some msg)
    (∀ c ∈ members, isOpen s c = true → out.sends.count (c, dmsg) = 1) ∧
    (∀ c ∈ members, isOpen s c = false → ∀ p ∈ out.sends, p.1 ≠ c) ∧
    (∀ p ∈ out.sends, p.2 = dmsg ∧ p.1 ∈ members) ∧
    (∀ c ∈ members, isOpen out.state c = false) ∧
    lookupKey out.state.rooms R = none ∧
    lookupKey out.state.roomOwners R = none := by
  intro dmsg out
  have hred : out =
      { state := { rooms := delKey s.rooms R, roomOwners := delKey s.roomOwners R,
                   openConns := (destroyFold dmsg members s.openConns).2 },
        sess := sess,
        sends := (destroyFold dmsg members s.openConns).1 } := by
    simp [out, dmsg, onMessage, handleParsed, hact, hR, hRne, truthy, jsKey, jsStr,
      hown, huser, hmem]
  rw [hred]
  refine ⟨?_, ?_, ?_, ?_, lookupKey_delKey_self s.rooms R,
    lookupKey_delKey_self s.roomOwners R⟩
  · intro c hcm hco
    have hcmem : c ∈ s.openConns := by
      have : s.openConns.contains c = true := hco
      exact List.mem_of_elem_eq_true this
    exact destroyFold_count_one dmsg members s.openConns c hcmem hcm
  · intro c hcm hco p hp hpc
    have h4 := destroyFold_sends_mem dmsg members s.openConns p hp
    rw [hpc] at h4
    have hcontains : s.openConns.contains c = true := List.elem_eq_true_of_mem h4.1
    have hco' : s.openConns.contains c = false := hco
    rw [hco'] at hcontains
    cases hcontains
  · intro p hp
    have h4 := destroyFold_sends_mem dmsg members s.openConns p hp
    exact ⟨h4.2.2, h4.2.1⟩
  · intro c hcm
    show isOpen _ c = false
    simp only [isOpen, destroyFold_final_opens]
    simp [List.mem_filter]
    exact fun _ => hcm

theorem C1_owner_destroy_witness :
    (∀ c ∈ [1, 2], isOpen stBothOpen c = true →
      (onMessage 1 "" stBothOpen aliceSess "" (some (destroyMsg (some "alice")))).sends.count
        (c, OutMsg.roomDestroyed (some "54321")
          ("Room " ++ "54321" ++ " has been destroyed by " ++ "alice")) = 1) ∧
    (∀ c ∈ [1, 2], isOpen stBothOpen c = false →
      ∀ p ∈ (onMessage 1 "" stBothOpen aliceSess ""
        (some (destroyMsg (some "alice")))).sends, p.1 ≠ c) ∧
    (∀ p ∈ (onMessage 1 "" stBothOpen aliceSess ""
        (some (destroyMsg (some "alice")))).sends,
      p.2 = OutMsg.roomDestroyed (some "54321")
        ("Room " ++ "54321" ++ " has been destroyed by " ++ "alice") ∧ p.1 ∈ [1, 2]) ∧
    (∀ c ∈ [1, 2], isOpen (onMessage 1 "" stBothOpen aliceSess ""
        (some (destroyMsg (some "alice")))).state c = false) ∧
    lookupKey (onMessage 1 "" stBothOpen aliceSess ""
      (some (destroyMsg (some "alice")))).state.rooms "54321" = none ∧
    lookupKey (onMessage 1 "" stBothOpen aliceSess ""
      (some (destroyMsg (some "alice")))).state.roomOwners "54321" = none :=
  C1_owner_destroy 1 "" stBothOpen aliceSess "" (destroyMsg (some "alice"))
    "54321" "alice" [1, 2] rfl (by decide) rfl rfl (by decide) (by decide)

/-- C3 as stated is false: connection 1 created room "12345" and then joined
it again (`dupRun`), so it appears twice in the member list, and its own
"message" frame is delivered to it twice — two deliveries for one open
member, not "once to every current member". -/
theorem C3_echo_counterexample :
    lookupKey dupRun.server.rooms "12345" = some [1, 1] ∧
    dupRun.server.openConns = [1] ∧
    (onMessage 1 "" dupRun.server (getSession dupRun 1) "hi"
        (some (textMsg "alice" "hi"))).sends
      = [(1, OutMsg.raw "hi"), (1, OutMsg.raw "hi")] := by
  decide

/-- C3 amended: a "message" frame from a bound session is relayed
byte-for-byte to every OPEN entry of the member list in insertion order
(the sender included), so each open member receives it exactly once whenever
the member list is duplicate-free; the registry is untouched. -/
theorem C3_message_broadcast (ws : ConnId) (code : String) (s : ServerState)
    (sess : Session) (raw : String) (msg : InMsg) (R : RoomId)
    (members : List ConnId)
    (hR : sess.currentRoom = some R) (hRne : R ≠ "")
    (hact : msg.action = some "message")
    (hmem : lookupKey s.rooms R = some members) :
    let out := onMessage ws code s sess raw (some msg)
    out.sends = (members.filter (fun c => isOpen s c)).map (fun c => (c, OutMsg.raw raw)) ∧
    out.state = s ∧ out.sess = sess ∧
    (isOpen s ws = true → ws ∈ members → (ws, OutMsg.raw raw) ∈ out.sends) ∧
    (members.Nodup → ∀ c ∈ members, isOpen s c = true →
      out.sends.count (c, OutMsg.raw raw) = 1) := by
  intro out
  have hred : out =
      { state := s, sess := sess,
        sends := (members.filter (fun c => isOpen s c)).map
          (fun c => (c, OutMsg.raw raw)) } := by
    simp [out, onMessage, handleParsed, hact, hR, hRne, truthy, jsKey, hmem,
      broadcastFold_eq_filter_map]
  rw [hred]
  refine ⟨rfl, rfl, rfl, ?_, ?_⟩
  · intro ho hm
    simp only [List.mem_map, List.mem_filter]
    exact ⟨ws, ⟨hm, ho⟩, rfl⟩
  · intro hnd c hcm hco
    have hcf : c ∈ members.filter (fun c => isOpen s c) := by
      simp only [List.mem_filter]
      exact ⟨hcm, hco⟩
    exact count_pair_map_eq_one (hnd.filter _) hcf (OutMsg.raw raw)

theorem C3_message_broadcast_witness :
    ((onMessage 1 "" stTrio { currentRoom := some "12345", currentUser := some "a" } "hi"
        (some (textMsg "a" "hi"))).sends
      = ([1, 2, 3].filter (fun c => isOpen stTrio c)).map (fun c => (c, OutMsg.raw "hi"))) ∧
    (onMessage 1 "" stTrio { currentRoom := some "12345", currentUser := some "a" } "hi"
        (some (textMsg "a" "hi"))).state = stTrio ∧
    (onMessage 1 "" stTrio { currentRoom := some "12345", currentUser := some "a" } "hi"
        (some (textMsg "a" "hi"))).sess
      = { currentRoom := some "12345", currentUser := some "a" } ∧
    (isOpen stTrio 1 = true → 1 ∈ [1, 2, 3] →
      (1, OutMsg.raw "hi") ∈ (onMessage 1 "" stTrio
        { currentRoom := some "12345", currentUser := some "a" } "hi"
        (some (textMsg "a" "hi"))).sends) ∧
    (([1, 2, 3] : List ConnId).Nodup → ∀ c ∈ [1, 2, 3], isOpen stTrio c = true →
      (onMessage 1 "" stTrio { currentRoom := some "12345", currentUser := some "a" } "hi"
        (some (textMsg "a" "hi"))).sends.count (c, OutMsg.raw "hi") = 1) :=
  C3_message_broadcast 1 "" stTrio { currentRoom := some "12345", currentUser := some "a" }
    "hi" (textMsg "a" "hi") "12345" [1, 2, 3] rfl (by decide) rfl (by decide)

/-- C4 as stated is false in its parenthetical: connection 1 lazily created
the ownerless room "77777" by joining it (`orphanRun`), and a destroyRoom
frame carrying NO userId field then destroys it (`roomOwners["77777"]` is
`undefined` and so is the frame's `userId`, and `undefined === undefined`),
so such a room is not beyond every requester's destroy. -/
theorem C4_join_counterexample :
    lookupKey orphanRun.server.rooms "77777" = some [1] ∧
    lookupKey orphanRun.server.roomOwners "77777" = none ∧
    lookupKey (onMessage 1 "" orphanRun.server (getSession orphanRun 1) ""
        (some (destroyMsg none))).state.rooms "77777" = none ∧
    (onMessage 1 "" orphanRun.server (getSession orphanRun 1) ""
        (some (destroyMsg none))).sends
      = [(1, OutMsg.roomDestroyed (some "77777")
          "Room 77777 has been destroyed by undefined")] := by
  decide

/-- C4 amended: a join naming room R lazily creates R with no owner record
when absent, appends the joiner, notifies every OTHER open member and
never the joiner; the resulting ownerless room resists every destroy request
that carries a userId (but not one whose userId field is absent). -/
theorem C4_lazy_room (ws : ConnId) (code : String) (s : ServerState)
    (sess : Session) (raw : String) (msg : InMsg) (R : RoomId) (U : UserId)
    (hact : msg.action = some "join") (hroom : msg.room = some R)
    (huser : msg.userId = some U) :
    let out := onMessage ws code s sess raw (some msg)
    let members1 := (lookupKey s.rooms R).getD [] ++ [ws]
    lookupKey out.state.rooms R = some members1 ∧
    out.state.roomOwners = s.roomOwners ∧
    out.state.openConns = s.openConns ∧
    out.sess = { currentRoom := some R, currentUser := some U } ∧
    out.sends = (members1.filter (fun c => c != ws && isOpen s c)).map
      (fun c => (c, OutMsg.system (some R) (U ++ " has joined the chat"))) ∧
    (∀ p ∈ out.sends, p.1 ≠ ws) ∧
    (lookupKey s.rooms R = none → out.sends = []) ∧
    (∀ (ws2 : ConnId) (code2 : String) (s2 : ServerState) (sess2 : Session)
        (raw2 : String) (msg2 : InMsg) (R2 : RoomId) (u : UserId),
      sess2.currentRoom = some R2 → R2 ≠ "" → msg2.action = some "destroyRoom" →
      msg2.userId = some u → readOwner s2 R2 = none →
      onMessage ws2 code2 s2 sess2 raw2 (some msg2)
        = { state := s2, sess := sess2, sends := [] }) := by
  intro out members1
  have hred : out =
      { state := { s with rooms := setKey s.rooms R members1 },
        sess := { currentRoom := some R, currentUser := some U },
        sends := (members1.filter (fun c => c != ws && isOpen s c)).map
          (fun c => (c, OutMsg.system (some R) (U ++ " has joined the chat"))) } := by
    simp [out, members1, onMessage, handleParsed, hact, hroom, huser, jsKey, jsStr,
      broadcastExcept_eq_filter_map]
  rw [hred]
  refine ⟨lookupKey_setKey_self s.rooms R members1, rfl, rfl, rfl, rfl, ?_, ?_, ?_⟩
  · intro p hp hpws
    simp only [List.mem_map, List.mem_filter] at hp
    obtain ⟨x, ⟨hxm, hxne⟩, hxp⟩ := hp
    have hx1 : p.1 = x := (congrArg Prod.fst hxp).symm
    rw [hpws] at hx1
    have hand : x ≠ ws ∧ isOpen s x = true := by simpa using hxne
    exact hand.1 hx1.symm
  · intro hnone
    simp [members1, hnone]
  · intro ws2 code2 s2 sess2 raw2 msg2 R2 u hR2 hR2ne hact2 huser2 hown2
    have hne2 : readOwner s2 R2 ≠ msg2.userId := by
      rw [hown2, huser2]
      exact fun h => Option.noConfusion h
    simp [onMessage, handleParsed, hact2, hR2, hR2ne, truthy, jsKey, hne2]

theorem C4_lazy_room_witness :
    (lookupKey (onMessage 4 "" stTrio { currentRoom := none, currentUser := none } ""
        (some (joinMsg "12345" "dana"))).state.rooms "12345"
      = some ((lookupKey stTrio.rooms "12345").getD [] ++ [4]) ∧
    (onMessage 4 "" stTrio { currentRoom := none, currentUser := none } ""
        (some (joinMsg "12345" "dana"))).state.roomOwners = stTrio.roomOwners ∧
    (onMessage 4 "" stTrio { currentRoom := none, currentUser := none } ""
        (some (joinMsg "12345" "dana"))).state.openConns = stTrio.openConns ∧
    (onMessage 4 "" stTrio { currentRoom := none, currentUser := none } ""
        (some (joinMsg "12345" "dana"))).sess
      = { currentRoom := some "12345", currentUser := some "dana" } ∧
    (onMessage 4 "" stTrio { currentRoom := none, currentUser := none } ""
        (some (joinMsg "12345" "dana"))).sends
      = (((lookupKey stTrio.rooms "12345").getD [] ++ [4]).filter
          (fun c => c != 4 && isOpen stTrio c)).map
          (fun c => (c, OutMsg.system (some "12345") ("dana" ++ " has joined the chat"))) ∧
    (∀ p ∈ (onMessage 4 "" stTrio { currentRoom := none, currentUser := none } ""
        (some (joinMsg "12345" "dana"))).sends, p.1 ≠ 4) ∧
    (lookupKey stTrio.rooms "12345" = none →
      (onMessage 4 "" stTrio { currentRoom := none, currentUser := none } ""
        (some (joinMsg "12345" "dana"))).sends = []) ∧
    (∀ (ws2 : ConnId) (code2 : String) (s2 : ServerState) (sess2 : Session)
        (raw2 : String) (msg2 : InMsg) (R2 : RoomId) (u : UserId),
      sess2.currentRoom = some R2 → R2 ≠ "" → msg2.action = some "destroyRoom" →
      msg2.userId = some u → readOwner s2 R2 = none →
      onMessage ws2 code2 s2 sess2 raw2 (some msg2)
        = { state := s2, sess := sess2, sends := [] })) :=
  C4_lazy_room 4 "" stTrio { currentRoom := none, currentUser := none } ""
    (joinMsg "12345" "dana") "12345" "dana" rfl rfl rfl

/-- C6 as stated is false: after "alice" creates room "12345"
(`firstCreateRun`, owner "alice", room live), a second create that draws the
same unchecked code (`collideRun`) overwrites the member list and REASSIGNS
`roomOwners["12345"]` to "bob" while the room stays live throughout. -/
theorem C6_owner_counterexample :
    readOwner firstCreateRun.server "12345" = some "alice" ∧
    lookupKey firstCreateRun.server.rooms "12345" = some [1] ∧
    readOwner collideRun.server "12345" = some "bob" ∧
    lookupKey collideRun.server.rooms "12345" = some [2] := by
  decide

/-- C6 amended: `roomOwners[r]` is written only by a create that drew code r
(set to that create's userId — including a colliding create that thereby
reassigns it) and removed only by a destroy that passed the owner check on r;
every other frame, and every disconnect, leaves it unchanged. -/
theorem C6_owner_stability (ws : ConnId) (code : String) (s : ServerState)
    (sess : Session) (raw : String) (parsed : Option InMsg) (r : RoomId) :
    (lookupKey (onMessage ws code s sess raw parsed).state.roomOwners r
        = lookupKey s.roomOwners r ∨
      (∃ msg, parsed = some msg ∧ msg.action = some "create" ∧ code = r ∧
        lookupKey (onMessage ws code s sess raw parsed).state.roomOwners r
          = some msg.userId) ∨
      (∃ msg, parsed = some msg ∧ msg.action = some "destroyRoom" ∧
        sess.currentRoom = some r ∧ readOwner s r = msg.userId ∧
        lookupKey (onMessage ws code s sess raw parsed).state.roomOwners r = none)) ∧
    (onClose ws s sess).1.roomOwners = s.roomOwners := by
  constructor
  · match parsed with
    | none => exact Or.inl rfl
    | some msg =>
        by_cases h1 : msg.action = some "create"
        · by_cases hr : code = r
          · subst hr
            refine Or.inr (Or.inl ⟨msg, rfl, h1, rfl, ?_⟩)
            simp [onMessage, handleParsed, h1, lookupKey_setKey_self]
          · refine Or.inl ?_
            simp [onMessage, handleParsed, h1,
              lookupKey_setKey_ne _ _ _ _ (fun h => hr h.symm)]
        · by_cases h2 : msg.action = some "join"
          · refine Or.inl ?_
            simp [onMessage, handleParsed, h1, h2]
          · by_cases h6 : msg.action = some "destroyRoom"
            · by_cases ht : truthy sess.currentRoom = true
              · cases hcr : sess.currentRoom with
                | none => rw [hcr] at ht; simp [truthy] at ht
                | some R0 =>
                    rw [hcr] at ht
                    by_cases hid : readOwner s R0 = msg.userId
                    · cases hl : lookupKey s.rooms R0 with
                      | none =>
                          refine Or.inl ?_
                          simp [onMessage, handleParsed, h1, h2, h6, ht, hcr, jsKey, hid, hl]
                      | some members =>
                          by_cases hr : R0 = r
                          · subst hr
                            refine Or.inr (Or.inr ⟨msg, rfl, h6, rfl, hid, ?_⟩)
                            simp [onMessage, handleParsed, h1, h2, h6, ht, hcr, jsKey,
                              hid, hl, lookupKey_delKey_self]
                          · refine Or.inl ?_
                            simp [onMessage, handleParsed, h1, h2, h6, ht, hcr, jsKey,
                              hid, hl, lookupKey_delKey_ne _ _ _ (fun h => hr h.symm)]
                    · refine Or.inl ?_
                      simp [onMessage, handleParsed, h1, h2, h6, ht, hcr, jsKey, hid]
              · refine Or.inl ?_
                simp [onMessage, handleParsed, h1, h2, h6, ht]
            · refine Or.inl ?_
              by_cases h3 : msg.action = some "message" ∧ truthy sess.currentRoom = true
              · cases hl : lookupKey s.rooms (jsKey sess.currentRoom) with
                | none => simp [onMessage, handleParsed, h1, h2, h3, hl]
                | some members => simp [onMessage, handleParsed, h1, h2, h3, hl]
              · by_cases h4 : msg.action = some "deleteFile" ∧ truthy sess.currentRoom = true
                · cases hl : lookupKey s.rooms (jsKey sess.currentRoom) with
                  | none => simp [onMessage, handleParsed, h1, h2, h3, h4, hl]
                  | some members => simp [onMessage, handleParsed, h1, h2, h3, h4, hl]
                · by_cases h5 : msg.action = some "clearChat" ∧ truthy sess.currentRoom = true
                  · cases hl : lookupKey s.rooms (jsKey sess.currentRoom) with
                    | none => simp [onMessage, handleParsed, h1, h2, h3, h4, h5, hl]
                    | some members => simp [onMessage, handleParsed, h1, h2, h3, h4, h5, hl]
                  · simp [onMessage, handleParsed, h1, h2, h3, h4, h5, h6]
  · rw [onClose]
    by_cases ht : truthy sess.currentRoom = true
    · cases hl : lookupKey ({ s with openConns := s.openConns.filter (fun c => c != ws) } :
          ServerState).rooms (jsKey sess.currentRoom) with
      | none => simp [ht, hl]
      | some members =>
          by_cases hu : truthy sess.currentUser = true
          · simp [ht, hl, hu]
          · simp [ht, hl, hu]
    · simp [ht]

/-- Removing one listed handle from a duplicate-free list shrinks it by
exactly one. -/
theorem length_filter_ne_of_nodup {members : List ConnId} (hnd : members.Nodup)
    {ws : ConnId} (hws : ws ∈ members) :
    (members.filter (fun c => c != ws)).length + 1 = members.length := by
  induction members with
  | nil => cases hws
  | cons a rest ih =>
      have hha : a ∉ rest := (List.nodup_cons.mp hnd).1
      have hhr : rest.Nodup := (List.nodup_cons.mp hnd).2
      rcases List.mem_cons.mp hws with h | h
      · subst h
        have : rest.filter (fun c => c != ws) = rest := by
          apply List.filter_eq_self.mpr
          intro x hx
          simp only [bne_iff_ne, ne_eq, decide_eq_true_eq]
          exact fun hxw => hha (hxw ▸ hx)
        simp [List.filter_cons, this]
      · have haw : a ≠ ws := fun heq => hha (heq ▸ h)
        have : (a != ws) = true := by simpa using haw
        simp [List.filter_cons, this, ← ih hhr h]

/-- For a handle other than the disconnecting one, openness is unaffected by
dropping the disconnecting handle from the open set. -/
theorem isOpen_drop_ne (s : ServerState) (rooms1 : List (RoomId × List ConnId))
    (owners1 : List (RoomId × Option UserId)) (ws x : ConnId) (hx : x ≠ ws) :
    isOpen
      { rooms := rooms1, roomOwners := owners1,
        openConns := s.openConns.filter (fun c => c != ws) } x = isOpen s x := by
  simp [isOpen, decide_eq_decide, List.mem_filter, hx]

/-- C7 as stated is false for the join notice: in `stDuo`, connection 1 is
open and — once pushed — a member of room "12345", yet the join broadcast
reaches member 2 only: the notice is not sent to "exactly those members
whose handle is open", because the joiner is excluded. -/
theorem C7_broadcast_counterexample :
    isOpen stDuo 1 = true ∧
    lookupKey (onMessage 1 "" stDuo { currentRoom := none, currentUser := none } ""
        (some (joinMsg "12345" "carol"))).state.rooms "12345" = some [2, 1] ∧
    (onMessage 1 "" stDuo { currentRoom := none, currentUser := none } ""
        (some (joinMsg "12345" "carol"))).sends
      = [(2, OutMsg.system (some "12345") "carol has joined the chat")] := by
  decide

/-- C7 amended: every broadcast walks its recipient list in member-list
insertion order and sends to exactly the OPEN handles on it, silently
skipping the rest; the recipient list is the full member list for message,
deleteFile, clearChat and (on duplicate-free rooms) destroy, the member list
without the joiner for the join notice, and the post-removal member list for
the departure notice. -/
theorem C7_broadcast_open_only :
    (∀ (ws : ConnId) (code : String) (s : ServerState) (sess : Session) (raw : String)
        (msg : InMsg) (R : RoomId) (members : List ConnId),
      sess.currentRoom = some R → R ≠ "" → lookupKey s.rooms R = some members →
      msg.action = some "message" →
      (onMessage ws code s sess raw (some msg)).sends
        = (members.filter (fun c => isOpen s c)).map (fun c => (c, OutMsg.raw raw))) ∧
    (∀ (ws : ConnId) (code : String) (s : ServerState) (sess : Session) (raw : String)
        (msg : InMsg) (R : RoomId) (members : List ConnId),
      sess.currentRoom = some R → R ≠ "" → lookupKey s.rooms R = some members →
      msg.action = some "deleteFile" →
      (onMessage ws code s sess raw (some msg)).sends
        = (members.filter (fun c => isOpen s c)).map
            (fun c => (c, OutMsg.deleteFile (some R) msg.userId msg.url msg.filename))) ∧
    (∀ (ws : ConnId) (code : String) (s : ServerState) (sess : Session) (raw : String)
        (msg : InMsg) (R : RoomId) (members : List ConnId),
      sess.currentRoom = some R → R ≠ "" → lookupKey s.rooms R = some members →
      msg.action = some "clearChat" →
      (onMessage ws code s sess raw (some msg)).sends
        = (members.filter (fun c => isOpen s c)).map
            (fun c => (c, OutMsg.clearChat (some R) msg.userId
              ("Chat cleared by " ++ jsStr msg.userId ++ " using shortcut (" ++
                jsStr msg.text ++ ")")))) ∧
    (∀ (ws : ConnId) (code : String) (s : ServerState) (sess : Session) (raw : String)
        (msg : InMsg) (R : RoomId),
      msg.action = some "join" → msg.room = some R →
      (onMessage ws code s sess raw (some msg)).sends
        = (((lookupKey s.rooms R).getD [] ++ [ws]).filter
            (fun c => c != ws && isOpen s c)).map
            (fun c => (c, OutMsg.system (some R)
              (jsStr msg.userId ++ " has joined the chat")))) ∧
    (∀ (ws : ConnId) (code : String) (s : ServerState) (sess : Session) (raw : String)
        (msg : InMsg) (R : RoomId) (members : List ConnId),
      sess.currentRoom = some R → R ≠ "" → lookupKey s.rooms R = some members →
      msg.action = some "destroyRoom" → readOwner s R = msg.userId → members.Nodup →
      (onMessage ws code s sess raw (some msg)).sends
        = (members.filter (fun c => isOpen s c)).map
            (fun c => (c, OutMsg.roomDestroyed (some R)
              ("Room " ++ R ++ " has been destroyed by " ++ jsStr msg.userId)))) ∧
    (∀ (ws : ConnId) (s : ServerState) (sess : Session) (R : RoomId) (U : UserId)
        (members : List ConnId),
      sess.currentRoom = some R → R ≠ "" → sess.currentUser = some U → U ≠ "" →
      lookupKey s.rooms R = some members →
      (onClose ws s sess).2
        = ((members.filter (fun c => c != ws)).filter (fun c => isOpen s c)).map
            (fun c => (c, OutMsg.system (some R) (U ++ " has left the chat")))) := by
  refine ⟨?_, ?_, ?_, ?_, ?_, ?_⟩
  · intro ws code s sess raw msg R members hR hRne hmem hact
    simp [onMessage, handleParsed, hact, hR, hRne, truthy, jsKey, hmem,
      broadcastFold_eq_filter_map]
  · intro ws code s sess raw msg R members hR hRne hmem hact
    simp [onMessage, handleParsed, hact, hR, hRne, truthy, jsKey, hmem,
      broadcastFold_eq_filter_map]
  · intro ws code s sess raw msg R members hR hRne hmem hact
    simp [onMessage, handleParsed, hact, hR, hRne, truthy, jsKey, hmem,
      broadcastFold_eq_filter_map]
  · intro ws code s sess raw msg R hact hroom
    simp [onMessage, handleParsed, hact, hroom, jsKey,
      broadcastExcept_eq_filter_map]
  · intro ws code s sess raw msg R members hR hRne hmem hact hown hnd
    simp [onMessage, handleParsed, hact, hR, hRne, truthy, jsKey, jsStr, hmem, hown,
      destroyFold_eq_of_nodup _ _ _ hnd, isOpen]
  · intro ws s sess R U members hR hRne hU hUne hmem
    rw [onClose]
    have hmem0 : lookupKey ({ s with
          openConns := s.openConns.filter (fun c => c != ws) } : ServerState).rooms R
        = some members := hmem
    simp [hR, hRne, truthy, jsKey, jsStr, hU, hUne, hmem0, broadcastFold_eq_filter_map]
    congr 1
    apply List.filter_congr
    intro x hx
    by_cases hxw : x = ws
    · subst hxw
      simp
    · rw [isOpen_drop_ne s _ _ ws x hxw]

theorem C7_broadcast_open_only_witness :
    (onMessage 1 "" stTrio { currentRoom := some "12345", currentUser := some "a" } "yo"
        (some (textMsg "a" "yo"))).sends
      = ([1, 2, 3].filter (fun c => isOpen stTrio c)).map (fun c => (c, OutMsg.raw "yo")) ∧
    (onMessage 1 "" stTrio { currentRoom := some "12345", currentUser := some "a" } ""
        (some (fileDelMsg "a" "u1" "f1"))).sends
      = ([1, 2, 3].filter (fun c => isOpen stTrio c)).map
          (fun c => (c, OutMsg.deleteFile (some "12345") (fileDelMsg "a" "u1" "f1").userId
            (fileDelMsg "a" "u1" "f1").url (fileDelMsg "a" "u1" "f1").filename)) ∧
    (onMessage 1 "" stTrio { currentRoom := some "12345", currentUser := some "a" } ""
        (some (clearChatMsg "a" "x"))).sends
      = ([1, 2, 3].filter (fun c => isOpen stTrio c)).map
          (fun c => (c, OutMsg.clearChat (some "12345") (clearChatMsg "a" "x").userId
            ("Chat cleared by " ++ jsStr (clearChatMsg "a" "x").userId ++
              " using shortcut (" ++ jsStr (clearChatMsg "a" "x").text ++ ")"))) ∧
    (onMessage 1 "" stDuo { currentRoom := none, currentUser := none } ""
        (some (joinMsg "12345" "carol"))).sends
      = (((lookupKey stDuo.rooms "12345").getD [] ++ [1]).filter
          (fun c => c != 1 && isOpen stDuo c)).map
          (fun c => (c, OutMsg.system (some "12345")
            (jsStr (joinMsg "12345" "carol").userId ++ " has joined the chat"))) ∧
    (onMessage 1 "" stBothOpen aliceSess "" (some (destroyMsg (some "alice")))).sends
      = ([1, 2].filter (fun c => isOpen stBothOpen c)).map
          (fun c => (c, OutMsg.roomDestroyed (some "54321")
            ("Room " ++ "54321" ++ " has been destroyed by " ++
              jsStr (destroyMsg (some "alice")).userId))) ∧
    (onClose 1 stBothOpen aliceSess).2
      = ((([1, 2] : List ConnId).filter (fun c => c != 1)).filter
          (fun c => isOpen stBothOpen c)).map
          (fun c => (c, OutMsg.system (some "54321") ("alice" ++ " has left the chat"))) :=
  ⟨C7_broadcast_open_only.1 1 "" stTrio
      { currentRoom := some "12345", currentUser := some "a" } "yo" (textMsg "a" "yo")
      "12345" [1, 2, 3] rfl (by decide) rfl rfl,
    C7_broadcast_open_only.2.1 1 "" stTrio
      { currentRoom := some "12345", currentUser := some "a" } "" (fileDelMsg "a" "u1" "f1")
      "12345" [1, 2, 3] rfl (by decide) rfl rfl,
    C7_broadcast_open_only.2.2.1 1 "" stTrio
      { currentRoom := some "12345", currentUser := some "a" } "" (clearChatMsg "a" "x")
      "12345" [1, 2, 3] rfl (by decide) rfl rfl,
    C7_broadcast_open_only.2.2.2.1 1 "" stDuo
      { currentRoom := none, currentUser := none } "" (joinMsg "12345" "carol")
      "12345" rfl rfl,
    C7_broadcast_open_only.2.2.2.2.1 1 "" stBothOpen aliceSess ""
      (destroyMsg (some "alice")) "54321" [1, 2] rfl (by decide) rfl rfl (by decide)
      (by decide),
    C7_broadcast_open_only.2.2.2.2.2 1 stBothOpen aliceSess "54321" "alice" [1, 2]
      rfl (by decide) rfl (by decide) rfl⟩

/-- C8 as stated is false: in `dupLeaveRun`, "bob" (handle 2) joined room
"12345" twice, so after handle 1 disconnects the remaining member list is
[2, 2] and handle 2 receives the departure notice twice, not exactly once. -/
theorem C8_disconnect_counterexample :
    lookupKey dupLeaveRun.server.rooms "12345" = some [2, 2] ∧
    dupLeaveRun.log.count (2, OutMsg.system (some "12345") "alice has left the chat") = 2 := by
  decide

/-- C8 amended: a disconnect of a session bound (with room and user set) to a
room still present removes the handle from that room's member list (on a
duplicate-free list, exactly one entry), leaves every other room and the
owner map untouched, and delivers the departure notice exactly once to each
remaining open member of a duplicate-free list; a disconnect with no bound
room, or whose room is gone from the registry, mutates no map and sends
nothing. -/
theorem C8_disconnect (ws : ConnId) (s : ServerState) (sess : Session) (R : RoomId)
    (U : UserId) (members : List ConnId)
    (hR : sess.currentRoom = some R) (hRne : R ≠ "")
    (hU : sess.currentUser = some U) (hUne : U ≠ "")
    (hmem : lookupKey s.rooms R = some members) (hnd : members.Nodup) :
    let res := onClose ws s sess
    let remaining := members.filter (fun c => c != ws)
    let leftMsg := OutMsg.system (some R) (U ++ " has left the chat")
    lookupKey res.1.rooms R = some remaining ∧
    ws ∉ remaining ∧
    (ws ∈ members → remaining.length + 1 = members.length) ∧
    (∀ r2, r2 ≠ R → lookupKey res.1.rooms r2 = lookupKey s.rooms r2) ∧
    res.1.roomOwners = s.roomOwners ∧
    res.2 = (remaining.filter (fun c => isOpen s c)).map (fun c => (c, leftMsg)) ∧
    (∀ c ∈ remaining, isOpen s c = true → res.2.count (c, leftMsg) = 1) ∧
    (∀ (ws2 : ConnId) (s2 : ServerState) (sess2 : Session),
      sess2.currentRoom = none →
      (onClose ws2 s2 sess2).1.rooms = s2.rooms ∧
      (onClose ws2 s2 sess2).1.roomOwners = s2.roomOwners ∧
      (onClose ws2 s2 sess2).2 = []) ∧
    (∀ (ws2 : ConnId) (s2 : ServerState) (sess2 : Session) (R2 : RoomId),
      sess2.currentRoom = some R2 → lookupKey s2.rooms (jsKey (some R2)) = none →
      (onClose ws2 s2 sess2).1.rooms = s2.rooms ∧
      (onClose ws2 s2 sess2).1.roomOwners = s2.roomOwners ∧
      (onClose ws2 s2 sess2).2 = []) := by
  intro res remaining leftMsg
  have hmem0 : lookupKey ({ s with
        openConns := s.openConns.filter (fun c => c != ws) } : ServerState).rooms R
      = some members := hmem
  have hrooms : res.1.rooms = setKey s.rooms R remaining := by
    show (onClose ws s sess).1.rooms = _
    rw [onClose]
    simp [hR, hRne, truthy, jsKey, hU, hUne, hmem0, remaining]
  have howners : res.1.roomOwners = s.roomOwners := by
    show (onClose ws s sess).1.roomOwners = _
    rw [onClose]
    simp [hR, hRne, truthy, jsKey, hU, hUne, hmem0]
  have hsends : res.2 = (remaining.filter (fun c => isOpen s c)).map (fun c => (c, leftMsg)) := by
    show (onClose ws s sess).2 = _
    rw [onClose]
    simp [hR, hRne, truthy, jsKey, jsStr, hU, hUne, hmem0, broadcastFold_eq_filter_map,
      remaining, leftMsg]
    congr 1
    apply List.filter_congr
    intro x hx
    by_cases hxw : x = ws
    · subst hxw
      simp
    · rw [isOpen_drop_ne s _ _ ws x hxw]
  refine ⟨?_, ?_, ?_, ?_, howners, hsends, ?_, ?_, ?_⟩
  · rw [hrooms]
    exact lookupKey_setKey_self _ _ _
  · simp [remaining, List.mem_filter]
  · intro hws
    exact length_filter_ne_of_nodup hnd hws
  · intro r2 hr2
    rw [hrooms]
    exact lookupKey_setKey_ne _ _ _ _ hr2
  · intro c hcrem hco
    rw [hsends]
    have hcf : c ∈ remaining.filter (fun c => isOpen s c) := by
      simp only [List.mem_filter]
      exact ⟨hcrem, hco⟩
    exact count_pair_map_eq_one ((hnd.filter _).filter _) hcf leftMsg
  · intro ws2 s2 sess2 h2
    rw [onClose]
    simp [h2, truthy]
  · intro ws2 s2 sess2 R2 h2 hl2
    have hl2' : lookupKey ({ s2 with
          openConns := s2.openConns.filter (fun c => c != ws2) } : ServerState).rooms
        (jsKey (some R2)) = none := hl2
    rw [onClose]
    by_cases ht2 : truthy sess2.currentRoom = true
    · simp [ht2, h2, hl2']
    · simp [ht2]

theorem C8_disconnect_witness :
    lookupKey (onClose 1 stBothOpen aliceSess).1.rooms "54321"
      = some ([1, 2].filter (fun c => c != 1)) ∧
    (1 : ConnId) ∉ ([1, 2] : List ConnId).filter (fun c => c != 1) ∧
    ((1 : ConnId) ∈ ([1, 2] : List ConnId) →
      (([1, 2] : List ConnId).filter (fun c => c != 1)).length + 1
        = ([1, 2] : List ConnId).length) ∧
    (∀ r2, r2 ≠ "54321" →
      lookupKey (onClose 1 stBothOpen aliceSess).1.rooms r2
        = lookupKey stBothOpen.rooms r2) ∧
    (onClose 1 stBothOpen aliceSess).1.roomOwners = stBothOpen.roomOwners ∧
    (onClose 1 stBothOpen aliceSess).2
      = ((([1, 2] : List ConnId).filter (fun c => c != 1)).filter
          (fun c => isOpen stBothOpen c)).map
          (fun c => (c, OutMsg.system (some "54321") ("alice" ++ " has left the chat"))) ∧
    (∀ c ∈ ([1, 2] : List ConnId).filter (fun c => c != 1),
      isOpen stBothOpen c = true →
      (onClose 1 stBothOpen aliceSess).2.count
        (c, OutMsg.system (some "54321") ("alice" ++ " has left the chat")) = 1) ∧
    (∀ (ws2 : ConnId) (s2 : ServerState) (sess2 : Session),
      sess2.currentRoom = none →
      (onClose ws2 s2 sess2).1.rooms = s2.rooms ∧
      (onClose ws2 s2 sess2).1.roomOwners = s2.roomOwners ∧
      (onClose ws2 s2 sess2).2 = []) ∧
    (∀ (ws2 : ConnId) (s2 : ServerState) (sess2 : Session) (R2 : RoomId),
      sess2.currentRoom = some R2 → lookupKey s2.rooms (jsKey (some R2)) = none →
      (onClose ws2 s2 sess2).1.rooms = s2.rooms ∧
      (onClose ws2 s2 sess2).1.roomOwners = s2.roomOwners ∧
      (onClose ws2 s2 sess2).2 = []) :=
  C8_disconnect 1 stBothOpen aliceSess "54321" "alice" [1, 2]
    rfl (by decide) rfl (by decide) (by decide) (by decide)

/-- C9 as stated is false: in `dupRun` the creating connection 1 joined its
own room "12345" again and the member list is [1, 1] — the same Connection
Handle twice, so duplicates are not impossible by construction. -/
theorem C9_dup_counterexample :
    lookupKey dupRun.server.rooms "12345" = some [1, 1] ∧
    ((lookupKey dupRun.server.rooms "12345").getD []).count 1 = 2 := by
  decide

/-- Auxiliary: a sequence of joins appends exactly the joining handles in
order to the room's member list. -/
theorem applyJoins_lookup (r : String) (js : List (ConnId × String)) :
    ∀ (s : ServerState) (acc : List ConnId), lookupKey s.rooms r = some acc →
      lookupKey (applyJoins r s js).rooms r = some (acc ++ js.map Prod.fst) := by
  induction js with
  | nil =>
      intro s acc h
      simpa [applyJoins] using h
  | cons p rest ih =>
      intro s acc h
      obtain ⟨ws, u⟩ := p
      have hstep : (onMessage ws "" s { currentRoom := none, currentUser := none } ""
          (some (joinMsg r u))).state.rooms = setKey s.rooms r (acc ++ [ws]) := by
        simp [onMessage, handleParsed, joinMsg, jsKey, h]
      rw [applyJoins]
      have := ih _ (acc ++ [ws]) (by rw [hstep]; exact lookupKey_setKey_self _ _ _)
      simpa using this

/-- C9 amended: starting from a freshly created room (sole member: the
creator), any sequence of joins leaves the member list exactly equal to the
creator followed by the joining handles in join order — its size is the
number of joins plus one — but the same handle can appear repeatedly when
the same connection joins more than once. -/
theorem C9_join_sequence (s : ServerState) (r : String) (ws0 : ConnId)
    (js : List (ConnId × String)) (h : lookupKey s.rooms r = some [ws0]) :
    lookupKey (applyJoins r s js).rooms r = some (ws0 :: js.map Prod.fst) ∧
    (ws0 :: js.map Prod.fst).length = js.length + 1 := by
  constructor
  · simpa using applyJoins_lookup r js s [ws0] h
  · simp

theorem C9_join_sequence_witness :
    lookupKey (applyJoins "12345" firstCreateRun.server [(2, "bob"), (2, "bob"), (3, "eve")]).rooms
        "12345" = some (1 :: [(2, "bob"), (2, "bob"), (3, "eve")].map Prod.fst) ∧
    ((1 : ConnId) :: [(2, "bob"), (2, "bob"), (3, "eve")].map Prod.fst).length
      = [(2, "bob"), (2, "bob"), (3, "eve")].length + 1 :=
  C9_join_sequence firstCreateRun.server "12345" 1 [(2, "bob"), (2, "bob"), (3, "eve")]
    (by decide)

end ChatServer
